import Mathlib

/-!
Verification of the key-pool, failover, path-normalization and stream-pacing
core of the gemini-gateway repository.

The Python source is shallowly embedded:

* `dict[str, int]` becomes an association list `List (String × Nat)` with
  first-match lookup (`lookupD`).  All mutation sites in the source only
  assign to keys that are already present, so `setKey` replaces the value of
  the first matching entry and is a no-op on absent keys, exactly mirroring
  the guarded assignments in the source.
* `itertools.cycle(xs)` becomes an explicit index `Nat`; `next` returns
  `xs[idx % len xs]` and increments the index; `next` on an empty cycle is a
  `StopIteration` error.
* Python exceptions (`KeyError`, `StopIteration`, `ValueError`) become an
  explicit `PyErr` value.  Operations that can both mutate the instance and
  raise return `Except PyErr α × KMState`, where the returned state is the
  instance state at the moment the exception escapes.
* the unbounded `while True` loop of `get_next_working_key` takes an
  explicit fuel argument; the termination theorem shows that fuel equal to
  the pool size (one full cycle) always suffices.
-/

namespace Gateway

/-- Python runtime errors that the embedded code can raise. -/
inductive PyErr where
  | keyError
  | stopIteration
  | valueError
  | fuelExhausted
  deriving Repr, DecidableEq

/-- First-match lookup in an association list, the model of `dict.get`/`dict[k]`. -/
def lookupD : List (String × Nat) → String → Option Nat
  | [], _ => none
  | (k, v) :: rest, key => if k = key then some v else lookupD rest key

/-- Model of the Python `key in dict` test. -/
def containsKey (d : List (String × Nat)) (key : String) : Bool :=
  (lookupD d key).isSome

/-- Model of `dict[key] = val` at the call sites of the source, all of which
only assign to keys already present: replaces the value of the first entry
with the given key and leaves the list unchanged when the key is absent. -/
def setKey : List (String × Nat) → String → Nat → List (String × Nat)
  | [], _, _ => []
  | (k, v) :: rest, key, val =>
    if k = key then (k, val) :: rest else (k, v) :: setKey rest key val

/-- Keys of a list with duplicates removed, keeping first occurrences: the
key order of the Python dict comprehension over a possibly-repeating list. -/
def dedupKeys : List String → List String
  | [] => []
  | k :: ks => k :: (dedupKeys ks).filter (fun x => x ≠ k)

/-- Model of the dict comprehension from key_manager.py line 21. -/
def mkZeroCounts (keys : List String) : List (String × Nat) :=
  (dedupKeys keys).map (fun k => (k, 0))

/-- Sum of all stored failure counts (used to count recorded failures). -/
def sumCounts (d : List (String × Nat)) : Nat :=
  (d.map Prod.snd).sum

/-- The state of a `KeyManager` instance (key_manager.py lines 11-26).
`MAX_RETRIES` holds `settings.MAX_RETRIES`, read by `handle_api_failure`. -/
structure KMState where
  api_keys : List String
  vertex_api_keys : List String
  key_idx : Nat
  vertex_key_idx : Nat
  key_failure_counts : List (String × Nat)
  vertex_key_failure_counts : List (String × Nat)
  MAX_FAILURES : Nat
  MAX_RETRIES : Nat
  deriving Repr, DecidableEq

/-- `KeyManager.__init__` (key_manager.py lines 12-26). -/
def initKeyManager (api_keys vertex_api_keys : List String)
    (maxFailures maxRetries : Nat) : KMState :=
  ⟨api_keys, vertex_api_keys, 0, 0,
    mkZeroCounts api_keys, mkZeroCounts vertex_api_keys, maxFailures, maxRetries⟩

/-- `KeyManager.get_next_key` (lines 31-34): one step of the cyclic iterator. -/
def get_next_key (km : KMState) : Except PyErr String × KMState :=
  if km.api_keys.isEmpty then (.error .stopIteration, km)
  else ((.ok (km.api_keys.getD (km.key_idx % km.api_keys.length) "")),
        { km with key_idx := km.key_idx + 1 })

/-- `KeyManager.get_next_vertex_key` (lines 36-39). -/
def get_next_vertex_key (km : KMState) : Except PyErr String × KMState :=
  if km.vertex_api_keys.isEmpty then (.error .stopIteration, km)
  else ((.ok (km.vertex_api_keys.getD (km.vertex_key_idx % km.vertex_api_keys.length) "")),
        { km with vertex_key_idx := km.vertex_key_idx + 1 })

/-- `KeyManager.is_key_valid` (lines 41-44).  The raw `dict[key]` access
raises `KeyError` if the key has no failure-count entry. -/
def is_key_valid (km : KMState) (key : String) : Except PyErr Bool :=
  match lookupD km.key_failure_counts key with
  | none => .error .keyError
  | some c => .ok (decide (c < km.MAX_FAILURES))

/-- `KeyManager.reset_failure_counts` (lines 51-55). -/
def reset_failure_counts (km : KMState) : Unit × KMState :=
  ((), { km with key_failure_counts := km.key_failure_counts.map (fun kv => (kv.1, 0)) })

/-- `KeyManager.reset_key_failure_count` (lines 63-73). -/
def reset_key_failure_count (km : KMState) (key : String) : Bool × KMState :=
  if containsKey km.key_failure_counts key then
    (true, { km with key_failure_counts := setKey km.key_failure_counts key 0 })
  else
    (false, km)

/-- The body of the `while True` loop of `KeyManager.get_next_working_key`
(lines 92-98), with explicit fuel standing for the unbounded loop. -/
def get_next_working_key_loop (km : KMState) (initial current : String) :
    Nat → Except PyErr String × KMState
  | 0 => (.error .fuelExhausted, km)
  | fuel + 1 =>
    match is_key_valid km current with
    | .error e => (.error e, km)
    | .ok true => (.ok current, km)
    | .ok false =>
      match get_next_key km with
      | (.error e, km') => (.error e, km')
      | (.ok nextKey, km') =>
        if nextKey = initial then (.ok nextKey, km')
        else get_next_working_key_loop km' initial nextKey fuel

/-- `KeyManager.get_next_working_key` (lines 87-98). -/
def get_next_working_key (km : KMState) (fuel : Nat) : Except PyErr String × KMState :=
  match get_next_key km with
  | (.error e, km') => (.error e, km')
  | (.ok initial, km') => get_next_working_key_loop km' initial initial fuel

/-- `KeyManager.handle_api_failure` (lines 113-124).  The increment
`self.key_failure_counts[api_key] += 1` reads the entry first, so an absent
key raises `KeyError` before any mutation.  On success the inner
`get_next_working_key` call runs with fuel equal to the pool size. -/
def handle_api_failure (km : KMState) (api_key : String) (retries : Nat) :
    Except PyErr String × KMState :=
  match lookupD km.key_failure_counts api_key with
  | none => (.error .keyError, km)
  | some c =>
    let km1 := { km with key_failure_counts := setKey km.key_failure_counts api_key (c + 1) }
    if retries < km1.MAX_RETRIES then get_next_working_key km1 km1.api_keys.length
    else (.ok "", km1)

/-- `KeyManager.handle_vertex_api_failure` (lines 126-133).  The Python
function has no `return` statement, so it returns `None` (modelled as
`Option.none`) despite its declared `-> str` annotation. -/
def handle_vertex_api_failure (km : KMState) (api_key : String) (_retries : Nat) :
    Except PyErr (Option String) × KMState :=
  match lookupD km.vertex_key_failure_counts api_key with
  | none => (.error .keyError, km)
  | some c =>
    (.ok none,
     { km with vertex_key_failure_counts := setKey km.vertex_key_failure_counts api_key (c + 1) })

/-- Loop of `KeyManager.get_keys_by_status` (lines 143-156). -/
def keys_by_status_go (counts : List (String × Nat)) (mf : Nat) :
    List String → Except PyErr (List (String × Nat) × List (String × Nat))
  | [] => .ok ([], [])
  | k :: ks =>
    match lookupD counts k with
    | none => .error .keyError
    | some c =>
      match keys_by_status_go counts mf ks with
      | .error e => .error e
      | .ok (vs, ivs) =>
        .ok (if c < mf then ((k, c) :: vs, ivs) else (vs, (k, c) :: ivs))

/-- `KeyManager.get_keys_by_status` (lines 143-156): partitions the pool into
valid and invalid keys with their counts; read-only. -/
def get_keys_by_status (km : KMState) :
    Except PyErr (List (String × Nat) × List (String × Nat)) × KMState :=
  (keys_by_status_go km.key_failure_counts km.MAX_FAILURES km.api_keys, km)

/-- `KeyManager.get_first_valid_key` (lines 172-184): first key in failure-map
order whose count is below threshold, else the first pool key, else `""`. -/
def get_first_valid_key (km : KMState) : String × KMState :=
  (match km.key_failure_counts.find? (fun kv => kv.2 < km.MAX_FAILURES) with
   | some kv => kv.1
   | none =>
     match km.api_keys with
     | [] => ""
     | k :: _ => k, km)

/-- The module-level singleton state of key_manager.py (lines 187-194):
the instance plus the preserved failure counts, old key lists and
next-key hints that survive a reset. -/
structure SingletonState where
  singleton_instance : Option KMState
  preserved_failure_counts : Option (List (String × Nat))
  preserved_vertex_failure_counts : Option (List (String × Nat))
  preserved_old_api_keys_for_reset : Option (List String)
  preserved_vertex_old_api_keys_for_reset : Option (List String)
  preserved_next_key_in_cycle : Option String
  preserved_vertex_next_key_in_cycle : Option String
  deriving Repr, DecidableEq

/-- `reset_key_manager_instance` (lines 403-463): snapshots the failure
counts, the key lists, and the next-to-be-returned key of each cycle
(obtained by calling `get_next_key` on the outgoing instance), then clears
the singleton. -/
def reset_key_manager_instance (s : SingletonState) : SingletonState :=
  match s.singleton_instance with
  | none => s
  | some km =>
    { singleton_instance := none
      preserved_failure_counts := some km.key_failure_counts
      preserved_vertex_failure_counts := some km.vertex_key_failure_counts
      preserved_old_api_keys_for_reset := some km.api_keys
      preserved_vertex_old_api_keys_for_reset := some km.vertex_api_keys
      preserved_next_key_in_cycle :=
        if km.api_keys.isEmpty then none
        else match get_next_key km with
          | (.ok k, _) => some k
          | (.error _, _) => none
      preserved_vertex_next_key_in_cycle :=
        if km.vertex_api_keys.isEmpty then none
        else match get_next_vertex_key km with
          | (.ok k, _) => some k
          | (.error _, _) => none }

/-- The failure-count restore loop of `get_key_manager_instance`
(lines 235-244): zero counts for the new keys, then carry over the
preserved count of every key present in both lists. -/
def restoreCounts (newKeys : List String) (preserved : List (String × Nat)) :
    List (String × Nat) :=
  preserved.foldl
    (fun cur kv => if containsKey cur kv.1 then setKey cur kv.1 kv.2 else cur)
    (mkZeroCounts newKeys)

/-- The candidate scan of `get_key_manager_instance` (lines 272-281):
starting from `startIdx`, scan the old key list forward with wraparound and
return the first key that also occurs in the new list. -/
def closestSurvivor (oldKeys newKeys : List String) (startIdx : Nat) : Option String :=
  (List.range oldKeys.length).findSome? (fun i =>
    if oldKeys.getD ((startIdx + i) % oldKeys.length) "" ∈ newKeys then
      some (oldKeys.getD ((startIdx + i) % oldKeys.length) "")
    else none)

/-- Step 1 of `get_key_manager_instance` for the primary pool
(lines 234-244): restore the preserved failure counts.  The Python
truthiness test `if _preserved_failure_counts:` is the emptiness test. -/
def restoreMainCounts (km0 : KMState) (s : SingletonState) : KMState :=
  match s.preserved_failure_counts with
  | some d =>
    if d.isEmpty then km0
    else { km0 with key_failure_counts := restoreCounts km0.api_keys d }
  | none => km0

/-- `start_key_for_new_cycle` of `get_key_manager_instance` (lines 260-291):
the truthiness test on the preserved lists and next-key hint, the
`oldKeys.index` call (`ValueError` → `none`), then the forward scan. -/
def mainStartKey (km1 : KMState) (s : SingletonState) : Option String :=
  match s.preserved_old_api_keys_for_reset, s.preserved_next_key_in_cycle with
  | some oldKeys, some nk =>
    if oldKeys.isEmpty || nk = "" || km1.api_keys.isEmpty then none
    else
      match oldKeys.findIdx? (fun x => x = nk) with
      | none => none
      | some startIdx => closestSurvivor oldKeys km1.api_keys startIdx
  | _, _ => none

/-- Step 2 of `get_key_manager_instance` for the primary pool
(lines 293-324): advance the fresh cycle to the determined start key; the
`if start_key_for_new_cycle and ...` truthiness test and the
`api_keys.index` call (`ValueError` → no advancement) included. -/
def restoreMainCycle (km1 : KMState) (s : SingletonState) : KMState :=
  match mainStartKey km1 s with
  | some sk =>
    if sk = "" || km1.api_keys.isEmpty then km1
    else
      match km1.api_keys.findIdx? (fun x => x = sk) with
      | none => km1
      | some targetIdx => { km1 with key_idx := targetIdx }
  | none => km1

/-- Steps 1-2 of `get_key_manager_instance` for the primary pool. -/
def restoreMainPool (km0 : KMState) (s : SingletonState) : KMState :=
  restoreMainCycle (restoreMainCounts km0 s) s

/-- Vertex analogue of `restoreMainCounts` (lines 246-258). -/
def restoreVertexCounts (km0 : KMState) (s : SingletonState) : KMState :=
  match s.preserved_vertex_failure_counts with
  | some d =>
    if d.isEmpty then km0
    else { km0 with vertex_key_failure_counts := restoreCounts km0.vertex_api_keys d }
  | none => km0

/-- Vertex analogue of `mainStartKey` (lines 330-361). -/
def vertexStartKey (km1 : KMState) (s : SingletonState) : Option String :=
  match s.preserved_vertex_old_api_keys_for_reset,
      s.preserved_vertex_next_key_in_cycle with
  | some oldKeys, some nk =>
    if oldKeys.isEmpty || nk = "" || km1.vertex_api_keys.isEmpty then none
    else
      match oldKeys.findIdx? (fun x => x = nk) with
      | none => none
      | some startIdx => closestSurvivor oldKeys km1.vertex_api_keys startIdx
  | _, _ => none

/-- Vertex analogue of `restoreMainCycle` (lines 363-394). -/
def restoreVertexCycle (km1 : KMState) (s : SingletonState) : KMState :=
  match vertexStartKey km1 s with
  | some sk =>
    if sk = "" || km1.vertex_api_keys.isEmpty then km1
    else
      match km1.vertex_api_keys.findIdx? (fun x => x = sk) with
      | none => km1
      | some targetIdx => { km1 with vertex_key_idx := targetIdx }
  | none => km1

/-- Step 3 of `get_key_manager_instance` for the vertex pool
(lines 246-258 and 330-398), symmetric to `restoreMainPool`. -/
def restoreVertexPool (km0 : KMState) (s : SingletonState) : KMState :=
  restoreVertexCycle (restoreVertexCounts km0 s) s

/-- `get_key_manager_instance` (lines 197-400).  Returns the existing
singleton unchanged when one exists; otherwise requires both key lists
(`ValueError` when a list is missing), builds a fresh instance, restores the
preserved failure counts and cycle positions, and clears all preserved
state. -/
def get_key_manager_instance (s : SingletonState)
    (api_keys vertex_api_keys : Option (List String))
    (maxFailures maxRetries : Nat) : Except PyErr (KMState × SingletonState) :=
  match s.singleton_instance with
  | some km => .ok (km, s)
  | none =>
    match api_keys, vertex_api_keys with
    | none, _ => .error .valueError
    | some _, none => .error .valueError
    | some aks, some vks =>
      let km0 := initKeyManager aks vks maxFailures maxRetries
      let km := restoreVertexPool (restoreMainPool km0 s) s
      .ok (km, ⟨some km, none, none, none, none, none, none⟩)

/-- The retry loop of `GeminiChatService.stream_generate_content`
(vertex_express_chat_service.py lines 199-266), specialised to an upstream
`attempt` that always fails — the premise of the failover claim.  Every
iteration of `while retries < max_retries` then runs the `except` branch:
`retries += 1`, one `handle_api_failure` call (which records the failure and
either supplies the next working key or returns `""`), then `break` when no
key is returned or the budget is exhausted.  The counter `remaining` stands
for `max_retries - retries`; the result is the number of upstream attempts
made, the final pool state, and whether the loop ended by raising
(`false` component models `is_success = False`: the stream is cut short in
the failure state). -/
def stream_all_fail_loop (mr : Nat) : KMState → String → Nat → Nat × KMState × Bool
  | km, _, 0 => (0, km, false)
  | km, key, remaining + 1 =>
    let retries := mr - remaining
    match handle_api_failure km key retries with
    | (.error _, km') => (1, km', false)
    | (.ok newKey, km') =>
      if newKey = "" then (1, km', false)
      else if mr ≤ retries then (1, km', false)
      else
        let r := stream_all_fail_loop mr km' newKey remaining
        (r.1 + 1, r.2)

/-- Entry point of the specialised retry loop: `retries` starts at `0`, so
the remaining budget is `mr` (`settings.MAX_RETRIES`). -/
def stream_generate_content_all_fail (km : KMState) (api_key : String) (mr : Nat) :
    Nat × KMState × Bool :=
  stream_all_fail_loop mr km api_key mr

/-- The tunables of `StreamOptimizer` (stream_optimizer.py lines 25-49).
Delays are Python floats, idealised as real numbers; thresholds and the
chunk size are Python ints (non-negative in every configuration the source
constructs). -/
structure StreamOptimizer where
  min_delay : ℝ
  max_delay : ℝ
  short_text_threshold : Nat
  long_text_threshold : Nat
  chunk_size : Nat

/-- `StreamOptimizer.calculate_delay` (lines 51-72), with `math.log`
idealised as `Real.log`. -/
noncomputable def calculate_delay (o : StreamOptimizer) (text_length : Nat) : ℝ :=
  if text_length ≤ o.short_text_threshold then o.max_delay
  else if o.long_text_threshold ≤ text_length then o.min_delay
  else
    let ratio := Real.log ((text_length : ℝ) / (o.short_text_threshold : ℝ)) /
      Real.log ((o.long_text_threshold : ℝ) / (o.short_text_threshold : ℝ))
    o.max_delay - ratio * (o.max_delay - o.min_delay)

/-- `text[i : i + size] for i in range(0, len(text), size)`: split a text
into contiguous blocks of `size` characters, the last one possibly shorter
(stream_optimizer.py lines 83-85).  Texts are modelled as character lists. -/
def chunksOf (size : Nat) (l : List Char) : List (List Char) :=
  if size = 0 then []
  else if l.isEmpty then []
  else l.take size :: chunksOf size (l.drop size)
termination_by l.length
decreasing_by
  rename_i hsize hne
  have hl : l ≠ [] := by
    intro h
    subst h
    simp at hne
  have h1 : 0 < l.length := List.length_pos.mpr hl
  have h2 : 0 < size := Nat.pos_of_ne_zero hsize
  simp only [List.length_drop]
  omega

/-- `StreamOptimizer.split_text_into_chunks` (lines 74-85). -/
def split_text_into_chunks (o : StreamOptimizer) (text : List Char) : List (List Char) :=
  chunksOf o.chunk_size text

/-- The sequence of chunk texts handed to `create_response_chunk` by
`StreamOptimizer.optimize_stream_output` (lines 87-122): nothing for empty
text, fixed-size blocks at or above the long-text threshold, single
characters below it. -/
def optimize_stream_output_texts (o : StreamOptimizer) (text : List Char) :
    List (List Char) :=
  if text.isEmpty then []
  else if o.long_text_threshold ≤ text.length then split_text_into_chunks o text
  else text.map (fun c => [c])

/-- The parts of a FastAPI request that `SmartRoutingMiddleware` inspects.
`body_model` abstracts the `json.loads(request._body)` step of
`extract_model_name` (smart_routing_middleware.py lines 189-197): it is
`some m` exactly when the raw body parses as a JSON object whose `"model"`
field is the truthy value `m`, and `none` otherwise. -/
structure Request where
  query_params : List (String × String)
  body_model : Option String

/-- First-match query-parameter lookup, the model of `request.query_params.get`. -/
def queryGet (params : List (String × String)) (key : String) : Option String :=
  match params.find? (fun kv => kv.1 = key) with
  | some kv => some kv.2
  | none => none

/-- Python `path.lower()` (the paths involved are ASCII). -/
def lowerStr (s : List Char) : List Char :=
  s.map Char.toLower

/-- Python `needle in haystack` substring test. -/
def containsSub (hay needle : List Char) : Bool :=
  decide (List.IsInfix needle hay)

/-- One `[^/:]+` capture group: nonempty, no slash, no colon. -/
def segOk (s : List Char) : Bool :=
  !s.isEmpty && s.all (fun c => c ≠ '/' && c ≠ ':')

/-- `rest` ends with the literal `suffix` and everything before it is a
valid `[^/:]+` model segment. -/
def endsWithSeg (rest suffix : List Char) : Bool :=
  suffix.isSuffixOf rest && segOk (rest.take (rest.length - suffix.length))

/-- A `^PRE[^/:]+:(generate|streamGenerate)Content$` pattern of
`is_already_correct_format`. -/
def matchModelOp (pre path : List Char) : Bool :=
  pre.isPrefixOf path &&
    (let rest := path.drop pre.length
     endsWithSeg rest (String.data ":generateContent") ||
       endsWithSeg rest (String.data ":streamGenerateContent"))

/-- A `^PRE(chat/completions|models|embeddings|images/generations|audio/speech)$`
pattern of `is_already_correct_format`. -/
def matchV1Op (pre path : List Char) : Bool :=
  pre.isPrefixOf path &&
    (let rest := path.drop pre.length
     rest == String.data "chat/completions" || rest == String.data "models" ||
       rest == String.data "embeddings" || rest == String.data "images/generations" ||
       rest == String.data "audio/speech")

/-- The vertex-express `/v1/` pattern (no `audio/speech` alternative). -/
def matchVertexV1Op (path : List Char) : Bool :=
  (String.data "/vertex-express/v1/").isPrefixOf path &&
    (let rest := path.drop (String.data "/vertex-express/v1/").length
     rest == String.data "chat/completions" || rest == String.data "models" ||
       rest == String.data "embeddings" || rest == String.data "images/generations")

/-- `SmartRoutingMiddleware.is_already_correct_format` (lines 62-82): the
fixed list of canonical patterns, in source order. -/
def is_already_correct_format (path : List Char) : Bool :=
  matchModelOp (String.data "/v1beta/models/") path ||
    matchModelOp (String.data "/gemini/v1beta/models/") path ||
    path == String.data "/v1beta/models" ||
    path == String.data "/gemini/v1beta/models" ||
    matchV1Op (String.data "/v1/") path ||
    matchV1Op (String.data "/openai/v1/") path ||
    matchV1Op (String.data "/hf/v1/") path ||
    matchModelOp (String.data "/vertex-express/v1beta/models/") path ||
    path == String.data "/vertex-express/v1beta/models" ||
    matchVertexV1Op path

/-- The rewrite metadata dictionary (`fix_info`) attached to a rewrite. -/
structure FixInfo where
  tag : String
  model : Option String
  is_stream : Option Bool
  deriving Repr, DecidableEq

/-- The maximal `[^/:]+` run at the front of `rest`, or `none` when the run
is empty. -/
def modelSegAt (rest : List Char) : Option (List Char) :=
  let seg := rest.takeWhile (fun c => c ≠ '/' && c ≠ ':')
  if seg.isEmpty then none else some seg

/-- `re.search(r"/models/([^/:]+)", path, re.IGNORECASE)` (lines 204-207):
leftmost position where case-insensitive `/models/` is followed by at least
one character that is neither a slash nor a colon; the capture is the
maximal such run, taken from the original (non-lowered) path. -/
def findModelInPath : List Char → Option (List Char)
  | [] => none
  | c :: cs =>
    if (String.data "/models/").isPrefixOf (lowerStr (c :: cs)) then
      match modelSegAt ((c :: cs).drop 8) with
      | some seg => some seg
      | none => findModelInPath cs
    else findModelInPath cs

/-- `SmartRoutingMiddleware.extract_model_name` (lines 186-210): body model
field first, then a truthy `model` query parameter, then a `/models/{name}`
path segment; `none` models the `ValueError` when nothing is found. -/
def extract_model_name (path : List Char) (req : Request) : Option (List Char) :=
  match req.body_model with
  | some m => some m.data
  | none =>
    match queryGet req.query_params "model" with
    | some v => if v = "" then findModelInPath path else some v.data
    | none => findModelInPath path

/-- `SmartRoutingMiddleware.detect_stream_request` (lines 174-184). -/
def detect_stream_request (path : List Char) (req : Request) : Bool :=
  containsSub (lowerStr path) (String.data "stream") ||
    queryGet req.query_params "stream" == some "true"

/-- `SmartRoutingMiddleware.fix_gemini_by_operation` (lines 84-138). -/
def fix_gemini_by_operation (path : List Char) (method : String) (req : Request) :
    List Char × Option FixInfo :=
  if method = "GET" then
    (String.data "/v1beta/models", some ⟨"gemini_models", none, none⟩)
  else
    match extract_model_name path req with
    | none => (path, none)
    | some modelName =>
      let isStream := detect_stream_request path req
      if containsSub (lowerStr path) (String.data "/vertex-express/") then
        (if isStream then
           String.data "/vertex-express/v1beta/models/" ++ modelName ++
             String.data ":streamGenerateContent"
         else
           String.data "/vertex-express/v1beta/models/" ++ modelName ++
             String.data ":generateContent",
         some ⟨if isStream then "vertex_express_stream" else "vertex_express_generate",
               some (String.mk modelName), some isStream⟩)
      else
        (if isStream then
           String.data "/v1beta/models/" ++ modelName ++ String.data ":streamGenerateContent"
         else
           String.data "/v1beta/models/" ++ modelName ++ String.data ":generateContent",
         some ⟨if isStream then "gemini_stream" else "gemini_generate",
               some (String.mk modelName), some isStream⟩)

/-- `SmartRoutingMiddleware.fix_openai_by_operation` (lines 140-155). -/
def fix_openai_by_operation (path : List Char) (method : String) :
    List Char × Option FixInfo :=
  if method = "POST" then
    if containsSub (lowerStr path) (String.data "chat") ||
        containsSub (lowerStr path) (String.data "completion") then
      (String.data "/openai/v1/chat/completions", some ⟨"openai_chat", none, none⟩)
    else if containsSub (lowerStr path) (String.data "embedding") then
      (String.data "/openai/v1/embeddings", some ⟨"openai_embeddings", none, none⟩)
    else if containsSub (lowerStr path) (String.data "image") then
      (String.data "/openai/v1/images/generations", some ⟨"openai_images", none, none⟩)
    else if containsSub (lowerStr path) (String.data "audio") then
      (String.data "/openai/v1/audio/speech", some ⟨"openai_audio", none, none⟩)
    else (path, none)
  else if method = "GET" then
    if containsSub (lowerStr path) (String.data "model") then
      (String.data "/openai/v1/models", some ⟨"openai_models", none, none⟩)
    else (path, none)
  else (path, none)

/-- `SmartRoutingMiddleware.fix_v1_by_operation` (lines 157-172). -/
def fix_v1_by_operation (path : List Char) (method : String) :
    List Char × Option FixInfo :=
  if method = "POST" then
    if containsSub (lowerStr path) (String.data "chat") ||
        containsSub (lowerStr path) (String.data "completion") then
      (String.data "/v1/chat/completions", some ⟨"v1_chat", none, none⟩)
    else if containsSub (lowerStr path) (String.data "embedding") then
      (String.data "/v1/embeddings", some ⟨"v1_embeddings", none, none⟩)
    else if containsSub (lowerStr path) (String.data "image") then
      (String.data "/v1/images/generations", some ⟨"v1_images", none, none⟩)
    else if containsSub (lowerStr path) (String.data "audio") then
      (String.data "/v1/audio/speech", some ⟨"v1_audio", none, none⟩)
    else (path, none)
  else if method = "GET" then
    if containsSub (lowerStr path) (String.data "model") then
      (String.data "/v1/models", some ⟨"v1_models", none, none⟩)
    else (path, none)
  else (path, none)

/-- `SmartRoutingMiddleware.fix_request_url` (lines 36-60): canonical paths
pass through untouched, otherwise the priority-ordered rewrite cascade
runs. -/
def fix_request_url (path : List Char) (method : String) (req : Request) :
    List Char × Option FixInfo :=
  if is_already_correct_format path then (path, none)
  else if containsSub (lowerStr path) (String.data "generatecontent") ||
      containsSub (lowerStr path) (String.data "v1beta/models") then
    fix_gemini_by_operation path method req
  else if containsSub (lowerStr path) (String.data "/openai/") then
    fix_openai_by_operation path method
  else if containsSub (lowerStr path) (String.data "/v1/") then
    fix_v1_by_operation path method
  else if containsSub (lowerStr path) (String.data "/chat/completions") then
    (String.data "/v1/chat/completions", some ⟨"v1_chat", none, none⟩)
  else (path, none)

/-- The list of keys produced by `n` successive `get_next_key` calls,
together with the final state. -/
def drawKeys : KMState → Nat → List String × KMState
  | km, 0 => ([], km)
  | km, n + 1 =>
    match get_next_key km with
    | (.ok k, km') =>
      let r := drawKeys km' n
      (k :: r.1, r.2)
    | (.error _, km') => ([], km')

/-- Every key of the new failure-count map is obtained from the old one by
keeping it, resetting it to `0`, or incrementing it by exactly one. -/
def CountStep (old new : List (String × Nat)) : Prop :=
  ∀ j, lookupD new j = lookupD old j ∨ lookupD new j = some 0 ∨
    lookupD new j = (lookupD old j).map (fun c => c + 1)

/-- The constructor invariant: every pool key has a failure-count entry. -/
def Cover (km : KMState) : Prop :=
  ∀ k ∈ km.api_keys, containsKey km.key_failure_counts k = true

instance (km : KMState) : Decidable (Cover km) := by
  unfold Cover
  infer_instance

/-- `b` agrees with `a` on every field except possibly the rotation index. -/
def EqExceptKeyIdx (a b : KMState) : Prop :=
  b = { a with key_idx := b.key_idx }

/-! ### Association-list (dict) lemmas -/

theorem lookupD_setKey_self {d : List (String × Nat)} {k : String} {v c : Nat}
    (h : lookupD d k = some c) : lookupD (setKey d k v) k = some v := by
  induction d with
  | nil => simp [lookupD] at h
  | cons kv rest ih =>
    obtain ⟨k0, v0⟩ := kv
    by_cases hk : k0 = k
    · subst hk
      simp [setKey, lookupD]
    · simp only [lookupD, setKey, if_neg hk] at h ⊢
      exact ih h

theorem lookupD_setKey_ne {d : List (String × Nat)} {k j : String} {v : Nat}
    (h : j ≠ k) : lookupD (setKey d k v) j = lookupD d j := by
  induction d with
  | nil => simp [setKey]
  | cons kv rest ih =>
    obtain ⟨k0, v0⟩ := kv
    by_cases hk : k0 = k
    · subst hk
      have hkj : ¬(k0 = j) := fun hh => h hh.symm
      simp [setKey, lookupD, hkj]
    · simp only [setKey, if_neg hk, lookupD]
      by_cases hj : k0 = j
      · simp [hj]
      · simp [hj, ih]

theorem containsKey_setKey (d : List (String × Nat)) (k j : String) (v : Nat) :
    containsKey (setKey d k v) j = containsKey d j := by
  by_cases hjk : j = k
  · subst hjk
    unfold containsKey
    cases hl : lookupD d j with
    | none =>
      have : setKey d j v = d := by
        induction d with
        | nil => simp [setKey]
        | cons kv rest ih =>
          obtain ⟨k0, v0⟩ := kv
          simp only [lookupD] at hl
          by_cases hk : k0 = j
          · simp [hk] at hl
          · simp only [setKey, if_neg hk]
            simp only [if_neg hk] at hl
            rw [ih hl]
      rw [this, hl]
    | some c => simp [lookupD_setKey_self hl, hl]
  · unfold containsKey
    rw [lookupD_setKey_ne hjk]

theorem sumCounts_setKey_succ {d : List (String × Nat)} {k : String} {c : Nat}
    (h : lookupD d k = some c) :
    sumCounts (setKey d k (c + 1)) = sumCounts d + 1 := by
  induction d with
  | nil => simp [lookupD] at h
  | cons kv rest ih =>
    obtain ⟨k0, v0⟩ := kv
    by_cases hk : k0 = k
    · subst hk
      simp [lookupD] at h
      subst h
      simp [setKey, sumCounts]
      omega
    · simp only [lookupD, if_neg hk] at h
      simp only [setKey, if_neg hk, sumCounts, List.map_cons, List.sum_cons]
      have := ih h
      unfold sumCounts at this
      omega

theorem mem_of_lookupD_isSome {d : List (String × Nat)} {k : String}
    (h : (lookupD d k).isSome) : ∃ c, lookupD d k = some c := by
  cases hl : lookupD d k with
  | none => rw [hl] at h; simp at h
  | some c => exact ⟨c, rfl⟩

/-! ### C2: handle_api_failure on an unknown credential -/

/-- C2 (counterexample): the claim says `handle_api_failure` with a
credential absent from the failure-count map is a logged no-op that raises
no error; but on the pool `["A"]` the call `handle_api_failure("X", 0)`
raises `KeyError`, because `self.key_failure_counts[api_key] += 1` looks the
key up before incrementing. -/
theorem C2_counterexample :
    (handle_api_failure (initKeyManager ["A"] [] 3 3) "X" 0).1 =
      Except.error PyErr.keyError := rfl

/-- C2 (amended): for every credential absent from the pool's failure-count
map, `handle_api_failure` raises `KeyError` to the caller and leaves the
whole instance state — in particular every failure count — unchanged. -/
theorem C2_unknown_credential_raises (km : KMState) (key : String) (retries : Nat)
    (h : containsKey km.key_failure_counts key = false) :
    handle_api_failure km key retries = (.error .keyError, km) := by
  cases hl : lookupD km.key_failure_counts key with
  | none => simp [handle_api_failure, hl]
  | some c => simp [containsKey, hl] at h

/-- Witness for C2's amended theorem at a concrete pool and credential. -/
theorem C2_unknown_credential_raises_witness :
    containsKey (initKeyManager ["A"] [] 3 3).key_failure_counts "X" = false ∧
      handle_api_failure (initKeyManager ["A"] [] 3 3) "X" 0 =
        (.error .keyError, initKeyManager ["A"] [] 3 3) :=
  ⟨by decide, C2_unknown_credential_raises (initKeyManager ["A"] [] 3 3) "X" 0 (by decide)⟩

/-! ### C9: canonical paths pass through unchanged -/

/-- C9: every inbound path that already matches one of the fixed canonical
patterns is returned unchanged by `fix_request_url`, with no rewrite
metadata, whatever the method, query parameters and body are. -/
theorem C9_canonical_passthrough (path : List Char) (method : String) (req : Request)
    (h : is_already_correct_format path = true) :
    fix_request_url path method req = (path, none) := by
  unfold fix_request_url
  simp [h]

/-- Witness for C9 at the spec's example path
`/v1beta/models/gemini-pro:generateContent`. -/
theorem C9_canonical_passthrough_witness :
    is_already_correct_format (String.data "/v1beta/models/gemini-pro:generateContent") = true ∧
      fix_request_url (String.data "/v1beta/models/gemini-pro:generateContent") "POST"
          ⟨[("stream", "true")], some "gemini-pro"⟩ =
        (String.data "/v1beta/models/gemini-pro:generateContent", none) :=
  ⟨by decide,
   C9_canonical_passthrough (String.data "/v1beta/models/gemini-pro:generateContent") "POST"
     ⟨[("stream", "true")], some "gemini-pro"⟩ (by decide)⟩

/-! ### Key-rotation lemmas -/

theorem eqExceptKeyIdx_refl (a : KMState) : EqExceptKeyIdx a a := rfl

theorem eqExceptKeyIdx_trans {a b c : KMState}
    (h1 : EqExceptKeyIdx a b) (h2 : EqExceptKeyIdx b c) : EqExceptKeyIdx a c := by
  cases a
  cases b
  cases c
  simp_all [EqExceptKeyIdx]

theorem getD_mod_mem {l : List String} (h : l ≠ []) (i : Nat) :
    l.getD (i % l.length) "" ∈ l := by
  have hlen : 0 < l.length := List.length_pos.mpr h
  have hlt : i % l.length < l.length := Nat.mod_lt _ hlen
  rw [List.getD_eq_getElem l "" hlt]
  exact List.getElem_mem hlt

theorem get_next_key_eq {km : KMState} (h : km.api_keys ≠ []) :
    get_next_key km =
      (.ok (km.api_keys.getD (km.key_idx % km.api_keys.length) ""),
       { km with key_idx := km.key_idx + 1 }) := by
  simp [get_next_key, List.isEmpty_iff, h]

/-- The working-key scan succeeds within the given fuel as soon as some
position reachable from the current cursor within the fuel holds the
`initial` sentinel value; it never touches the failure counts. -/
theorem get_next_working_key_loop_ok :
    ∀ (fuel : Nat) (km : KMState) (initial current : String),
      Cover km → current ∈ km.api_keys →
      (∃ t, t < fuel ∧
        km.api_keys.getD ((km.key_idx + t) % km.api_keys.length) "" = initial) →
      ∃ k km', get_next_working_key_loop km initial current fuel = (.ok k, km') ∧
        k ∈ km.api_keys ∧ EqExceptKeyIdx km km'
  | 0, _, _, _, _, _, ⟨_, ht, _⟩ => absurd ht (Nat.not_lt_zero _)
  | fuel + 1, km, initial, current, hcov, hcur, ⟨t, ht, heq⟩ => by
    have hne : km.api_keys ≠ [] := List.ne_nil_of_mem hcur
    have hsome : (lookupD km.key_failure_counts current).isSome := hcov current hcur
    obtain ⟨c, hc⟩ := mem_of_lookupD_isSome hsome
    unfold get_next_working_key_loop
    simp only [is_key_valid, hc]
    by_cases hvalid : c < km.MAX_FAILURES
    · rw [decide_eq_true hvalid]
      exact ⟨current, km, rfl, hcur, eqExceptKeyIdx_refl km⟩
    · rw [decide_eq_false hvalid]
      rw [get_next_key_eq hne]
      set nextKey := km.api_keys.getD (km.key_idx % km.api_keys.length) "" with hnext
      by_cases hini : nextKey = initial
      · simp only [hini, if_pos rfl]
        exact ⟨initial, _, rfl, hini ▸ getD_mod_mem hne km.key_idx, rfl⟩
      · simp only [if_neg hini]
        have hstep : ∃ t', t' < fuel ∧
            km.api_keys.getD ((km.key_idx + 1 + t') % km.api_keys.length) "" = initial := by
          match t, ht, heq with
          | 0, _, heq0 => exact absurd heq0 (by simpa [hnext] using hini)
          | t' + 1, ht', heq' =>
            refine ⟨t', by omega, ?_⟩
            have : km.key_idx + 1 + t' = km.key_idx + (t' + 1) := by omega
            rw [this]
            exact heq'
        obtain ⟨k, km', hrun, hmem, hidx⟩ :=
          get_next_working_key_loop_ok fuel { km with key_idx := km.key_idx + 1 }
            initial nextKey hcov (getD_mod_mem hne km.key_idx) hstep
        exact ⟨k, km', hrun, hmem,
          eqExceptKeyIdx_trans (b := { km with key_idx := km.key_idx + 1 }) rfl hidx⟩

/-- The composite: `get_next_working_key` with fuel equal to the pool size
always succeeds on a nonempty covered pool, returns a pool credential, and
leaves everything but the rotation index unchanged. -/
theorem get_next_working_key_ok {km : KMState} (h : km.api_keys ≠ []) (hcov : Cover km) :
    ∃ k km', get_next_working_key km km.api_keys.length = (.ok k, km') ∧
      k ∈ km.api_keys ∧ EqExceptKeyIdx km km' := by
  unfold get_next_working_key
  rw [get_next_key_eq h]
  have hN : 0 < km.api_keys.length := List.length_pos.mpr h
  obtain ⟨k, km', hrun, hmem, hidx⟩ :=
    get_next_working_key_loop_ok km.api_keys.length { km with key_idx := km.key_idx + 1 }
      (km.api_keys.getD (km.key_idx % km.api_keys.length) "")
      (km.api_keys.getD (km.key_idx % km.api_keys.length) "")
      hcov (getD_mod_mem h km.key_idx)
      ⟨km.api_keys.length - 1, by omega, by
        have heq : km.key_idx + 1 + (km.api_keys.length - 1) =
            km.key_idx + km.api_keys.length := by omega
        rw [heq, Nat.add_mod_right]⟩
  exact ⟨k, km', hrun, hmem,
    eqExceptKeyIdx_trans (b := { km with key_idx := km.key_idx + 1 }) rfl hidx⟩

/-! ### C1: bounded termination of the working-key scan -/

/-- C1: for every pool with at least one credential, `get_next_working_key`
run with fuel equal to the pool size (at most one full cycle of the cursor)
returns `.ok` with some credential of the pool — with no assumption on the
failure counts, so in particular when every credential has reached
`MAX_FAILURES`. -/
theorem C1_next_working_key_terminates (km : KMState)
    (h : km.api_keys ≠ []) (hcov : Cover km) :
    ∃ k km', get_next_working_key km km.api_keys.length = (.ok k, km') ∧
      k ∈ km.api_keys := by
  obtain ⟨k, km', hrun, hmem, _⟩ := get_next_working_key_ok h hcov
  exact ⟨k, km', hrun, hmem⟩

/-- Witness for C1 on a pool of three credentials that have all reached the
failure threshold (`MAX_FAILURES = 1`, every count `1`). -/
theorem C1_next_working_key_terminates_witness :
    ((⟨["a", "b", "c"], [], 0, 0, [("a", 1), ("b", 1), ("c", 1)], [], 1, 3⟩ :
        KMState).api_keys ≠ [] ∧
      Cover ⟨["a", "b", "c"], [], 0, 0, [("a", 1), ("b", 1), ("c", 1)], [], 1, 3⟩) ∧
    ∃ k km',
      get_next_working_key
          ⟨["a", "b", "c"], [], 0, 0, [("a", 1), ("b", 1), ("c", 1)], [], 1, 3⟩
          (⟨["a", "b", "c"], [], 0, 0, [("a", 1), ("b", 1), ("c", 1)], [], 1, 3⟩ :
            KMState).api_keys.length =
        (.ok k, km') ∧
      k ∈ (⟨["a", "b", "c"], [], 0, 0, [("a", 1), ("b", 1), ("c", 1)], [], 1, 3⟩ :
        KMState).api_keys :=
  ⟨⟨by decide, by decide⟩,
   C1_next_working_key_terminates
     ⟨["a", "b", "c"], [], 0, 0, [("a", 1), ("b", 1), ("c", 1)], [], 1, 3⟩
     (by decide) (by decide)⟩

/-! ### handle_api_failure lemmas -/

/-- While the retry budget remains, `handle_api_failure` on a covered key of
a nonempty pool increments exactly that key's count (raising the stored sum
by one) and returns some pool credential from the working-key scan. -/
theorem handle_api_failure_ok {km : KMState} {key : String} {retries c : Nat}
    (hc : lookupD km.key_failure_counts key = some c)
    (hlt : retries < km.MAX_RETRIES) (hne : km.api_keys ≠ []) (hcov : Cover km) :
    ∃ k' km', handle_api_failure km key retries = (.ok k', km') ∧
      k' ∈ km.api_keys ∧
      km'.api_keys = km.api_keys ∧
      km'.MAX_RETRIES = km.MAX_RETRIES ∧
      km'.key_failure_counts = setKey km.key_failure_counts key (c + 1) ∧
      Cover km' ∧
      sumCounts km'.key_failure_counts = sumCounts km.key_failure_counts + 1 := by
  unfold handle_api_failure
  rw [hc]
  simp only [if_pos hlt]
  have hcov1 : Cover { km with
      key_failure_counts := setKey km.key_failure_counts key (c + 1) } := by
    intro k hkmem
    rw [containsKey_setKey]
    exact hcov k hkmem
  obtain ⟨k', km', hrun, hmem, hidx⟩ :=
    @get_next_working_key_ok
      { km with key_failure_counts := setKey km.key_failure_counts key (c + 1) }
      hne hcov1
  refine ⟨k', km', hrun, hmem, ?_, ?_, ?_, ?_, ?_⟩
  · rw [hidx]
  · rw [hidx]
  · rw [hidx]
  · intro k hkmem
    rw [hidx] at hkmem ⊢
    exact hcov1 k hkmem
  · rw [hidx]
    exact sumCounts_setKey_succ hc

/-- With the retry budget exhausted, `handle_api_failure` still increments
the count and returns the empty string. -/
theorem handle_api_failure_exhausted {km : KMState} {key : String} {retries c : Nat}
    (hc : lookupD km.key_failure_counts key = some c)
    (hge : km.MAX_RETRIES ≤ retries) :
    handle_api_failure km key retries =
      (.ok "", { km with key_failure_counts := setKey km.key_failure_counts key (c + 1) }) := by
  unfold handle_api_failure
  rw [hc]
  simp [Nat.not_lt.mpr hge]

/-! ### C8: the three-region delay curve -/

/-- C8: for thresholds in the configured order, `calculate_delay` returns
exactly the configured maximum delay for lengths at or below the short
threshold, exactly the configured minimum delay for lengths at or above the
long threshold, and the logarithmic interpolation
`max − (log(L/short)/log(long/short))·(max − min)` strictly in between. -/
theorem C8_delay_three_regions (o : StreamOptimizer) (L : Nat)
    (h : o.short_text_threshold < o.long_text_threshold) :
    (L ≤ o.short_text_threshold → calculate_delay o L = o.max_delay) ∧
    (o.long_text_threshold ≤ L → calculate_delay o L = o.min_delay) ∧
    (o.short_text_threshold < L → L < o.long_text_threshold →
      calculate_delay o L =
        o.max_delay -
          Real.log ((L : ℝ) / (o.short_text_threshold : ℝ)) /
              Real.log ((o.long_text_threshold : ℝ) / (o.short_text_threshold : ℝ)) *
            (o.max_delay - o.min_delay)) := by
  refine ⟨?_, ?_, ?_⟩
  · intro hL
    simp [calculate_delay, hL]
  · intro hL
    have h1 : ¬L ≤ o.short_text_threshold := by omega
    simp [calculate_delay, h1, hL]
  · intro h1 h2
    have h3 : ¬L ≤ o.short_text_threshold := by omega
    have h4 : ¬o.long_text_threshold ≤ L := by omega
    simp [calculate_delay, h3, h4]

/-- Witness for C8 on a concrete configuration (short = 2, long = 5),
evaluated in all three regions' hypothesis side. -/
theorem C8_delay_three_regions_witness :
    ((2 : Nat) < 5 ∧ (1 : Nat) ≤ 2) ∧
      calculate_delay ⟨0, 1, 2, 5, 3⟩ 1 = (⟨0, 1, 2, 5, 3⟩ : StreamOptimizer).max_delay :=
  ⟨⟨by decide, by decide⟩,
   (C8_delay_three_regions ⟨0, 1, 2, 5, 3⟩ 1 (by decide)).1 (by decide)⟩

/-! ### C10: the vertex failure handler never supplies a replacement -/

/-- C10: for every credential with a vertex failure-count entry and every
retry count, `handle_vertex_api_failure` increments that credential's vertex
count by one, changes nothing else, and returns `None` (despite the declared
`-> str` return type) — unlike `handle_api_failure`, which, while the retry
budget remains, returns a pool credential from the working-key scan. -/
theorem C10_vertex_failure_never_replaces (km : KMState) (key : String) (retries : Nat)
    (hk : containsKey km.vertex_key_failure_counts key = true) :
    ∃ c, lookupD km.vertex_key_failure_counts key = some c ∧
      handle_vertex_api_failure km key retries =
        (.ok none,
         { km with vertex_key_failure_counts :=
             setKey km.vertex_key_failure_counts key (c + 1) }) ∧
      lookupD (setKey km.vertex_key_failure_counts key (c + 1)) key = some (c + 1) ∧
      (∀ key2 retries2 c2,
        lookupD km.key_failure_counts key2 = some c2 →
        retries2 < km.MAX_RETRIES → km.api_keys ≠ [] → Cover km →
        ∃ k', (handle_api_failure km key2 retries2).1 = .ok k' ∧ k' ∈ km.api_keys) := by
  obtain ⟨c, hc⟩ := mem_of_lookupD_isSome hk
  refine ⟨c, hc, ?_, lookupD_setKey_self hc, ?_⟩
  · unfold handle_vertex_api_failure
    rw [hc]
  · intro key2 retries2 c2 hc2 hlt hne hcov
    obtain ⟨k', km', hrun, hmem, _⟩ := handle_api_failure_ok hc2 hlt hne hcov
    exact ⟨k', by rw [hrun], hmem⟩

/-- Witness for C10 on a concrete two-pool instance. -/
theorem C10_vertex_failure_never_replaces_witness :
    containsKey (⟨["a"], ["v"], 0, 0, [("a", 0)], [("v", 0)], 3, 3⟩ :
        KMState).vertex_key_failure_counts "v" = true ∧
      ∃ c, lookupD (⟨["a"], ["v"], 0, 0, [("a", 0)], [("v", 0)], 3, 3⟩ :
          KMState).vertex_key_failure_counts "v" = some c ∧
        handle_vertex_api_failure ⟨["a"], ["v"], 0, 0, [("a", 0)], [("v", 0)], 3, 3⟩ "v" 0 =
          (.ok none,
           { (⟨["a"], ["v"], 0, 0, [("a", 0)], [("v", 0)], 3, 3⟩ : KMState) with
               vertex_key_failure_counts :=
                 setKey (⟨["a"], ["v"], 0, 0, [("a", 0)], [("v", 0)], 3, 3⟩ :
                   KMState).vertex_key_failure_counts "v" (c + 1) }) ∧
        lookupD (setKey (⟨["a"], ["v"], 0, 0, [("a", 0)], [("v", 0)], 3, 3⟩ :
            KMState).vertex_key_failure_counts "v" (c + 1)) "v" = some (c + 1) ∧
        (∀ key2 retries2 c2,
          lookupD (⟨["a"], ["v"], 0, 0, [("a", 0)], [("v", 0)], 3, 3⟩ :
              KMState).key_failure_counts key2 = some c2 →
          retries2 < (⟨["a"], ["v"], 0, 0, [("a", 0)], [("v", 0)], 3, 3⟩ :
              KMState).MAX_RETRIES →
          (⟨["a"], ["v"], 0, 0, [("a", 0)], [("v", 0)], 3, 3⟩ :
              KMState).api_keys ≠ [] →
          Cover ⟨["a"], ["v"], 0, 0, [("a", 0)], [("v", 0)], 3, 3⟩ →
          ∃ k', (handle_api_failure ⟨["a"], ["v"], 0, 0, [("a", 0)], [("v", 0)], 3, 3⟩
              key2 retries2).1 = .ok k' ∧
            k' ∈ (⟨["a"], ["v"], 0, 0, [("a", 0)], [("v", 0)], 3, 3⟩ :
              KMState).api_keys) :=
  ⟨by decide,
   C10_vertex_failure_never_replaces
     ⟨["a"], ["v"], 0, 0, [("a", 0)], [("v", 0)], 3, 3⟩ "v" 0 (by decide)⟩

/-! ### C4: exactly three attempts when every attempt fails -/

/-- One unfolding of the always-failing retry loop. -/
theorem stream_all_fail_loop_succ (mr : Nat) (km : KMState) (key : String)
    (remaining : Nat) :
    stream_all_fail_loop mr km key (remaining + 1) =
      (match handle_api_failure km key (mr - remaining) with
       | (.error _, km') => (1, km', false)
       | (.ok newKey, km') =>
         if newKey = "" then (1, km', false)
         else if mr ≤ mr - remaining then (1, km', false)
         else
           let r := stream_all_fail_loop mr km' newKey remaining
           (r.1 + 1, r.2)) := rfl

/-- C4: with a retry budget of 3 (`MAX_RETRIES = 3`) and an upstream attempt
that always fails, the streaming failover loop makes exactly 3 attempts,
records one failure per attempt (the stored failure counts rise by 3 in
total), and then stops in the failure state — the stream is cut short
instead of retrying further. -/
theorem C4_stream_failover_three_attempts (km : KMState) (key : String)
    (hcov : Cover km) (hmem : key ∈ km.api_keys) (hnoempty : "" ∉ km.api_keys)
    (hmr : km.MAX_RETRIES = 3) :
    ∃ km', stream_generate_content_all_fail km key 3 = (3, km', false) ∧
      sumCounts km'.key_failure_counts = sumCounts km.key_failure_counts + 3 := by
  have hne : km.api_keys ≠ [] := List.ne_nil_of_mem hmem
  -- attempt 1: retries = 1
  obtain ⟨c0, hc0⟩ := mem_of_lookupD_isSome (hcov key hmem)
  obtain ⟨k1, km1, hrun1, hmem1, hkeys1, hmr1, _, hcov1, hsum1⟩ :=
    @handle_api_failure_ok km key (3 - 2) c0 hc0 (by omega) hne hcov
  have hk1ne : ¬(k1 = "") := fun h => hnoempty (h ▸ hmem1)
  have hmem1' : k1 ∈ km1.api_keys := by rw [hkeys1]; exact hmem1
  have hne1 : km1.api_keys ≠ [] := by rw [hkeys1]; exact hne
  -- attempt 2: retries = 2
  obtain ⟨c1, hc1⟩ := mem_of_lookupD_isSome (hcov1 k1 hmem1')
  obtain ⟨k2, km2, hrun2, hmem2, hkeys2, hmr2, _, hcov2, hsum2⟩ :=
    @handle_api_failure_ok km1 k1 (3 - 1) c1 hc1 (by omega) hne1 hcov1
  have hmem2' : k2 ∈ km2.api_keys := by rw [hkeys2]; exact hmem2
  have hk2ne : ¬(k2 = "") := by
    rw [hkeys1] at hmem2
    exact fun h => hnoempty (h ▸ hmem2)
  -- attempt 3: retries = 3, budget exhausted
  obtain ⟨c2, hc2⟩ := mem_of_lookupD_isSome (hcov2 k2 hmem2')
  have hrun3 := @handle_api_failure_exhausted km2 k2 (3 - 0) c2 hc2 (by omega)
  refine ⟨{ km2 with key_failure_counts := setKey km2.key_failure_counts k2 (c2 + 1) },
    ?_, ?_⟩
  · show stream_all_fail_loop 3 km key (2 + 1) = _
    rw [stream_all_fail_loop_succ, hrun1]
    simp only [if_neg hk1ne]
    rw [if_neg (show ¬(3 ≤ 3 - 2) by omega)]
    show ((stream_all_fail_loop 3 km1 k1 (1 + 1)).1 + 1,
      (stream_all_fail_loop 3 km1 k1 (1 + 1)).2) = _
    rw [stream_all_fail_loop_succ, hrun2]
    simp only [if_neg hk2ne]
    rw [if_neg (show ¬(3 ≤ 3 - 1) by omega)]
    show ((stream_all_fail_loop 3 km2 k2 (0 + 1)).1 + 1 + 1,
      ((stream_all_fail_loop 3 km2 k2 (0 + 1)).2.1,
        (stream_all_fail_loop 3 km2 k2 (0 + 1)).2.2)) = _
    rw [stream_all_fail_loop_succ, hrun3]
    rfl
  · rw [sumCounts_setKey_succ hc2, hsum2, hsum1]

/-- Witness for C4 on a concrete three-credential pool. -/
theorem C4_stream_failover_three_attempts_witness :
    (Cover ⟨["a", "b", "c"], [], 0, 0, [("a", 0), ("b", 0), ("c", 0)], [], 5, 3⟩ ∧
      "a" ∈ (⟨["a", "b", "c"], [], 0, 0, [("a", 0), ("b", 0), ("c", 0)], [], 5, 3⟩ :
        KMState).api_keys ∧
      "" ∉ (⟨["a", "b", "c"], [], 0, 0, [("a", 0), ("b", 0), ("c", 0)], [], 5, 3⟩ :
        KMState).api_keys) ∧
    ∃ km', stream_generate_content_all_fail
        ⟨["a", "b", "c"], [], 0, 0, [("a", 0), ("b", 0), ("c", 0)], [], 5, 3⟩ "a" 3 =
        (3, km', false) ∧
      sumCounts km'.key_failure_counts =
        sumCounts (⟨["a", "b", "c"], [], 0, 0, [("a", 0), ("b", 0), ("c", 0)], [], 5, 3⟩ :
          KMState).key_failure_counts + 3 :=
  ⟨⟨by decide, by decide, by decide⟩,
   C4_stream_failover_three_attempts
     ⟨["a", "b", "c"], [], 0, 0, [("a", 0), ("b", 0), ("c", 0)], [], 5, 3⟩ "a"
     (by decide) (by decide) (by decide) rfl⟩

/-! ### C5: one full cycle visits every credential once, in order -/

theorem drawKeys_eq {km : KMState} (h : km.api_keys ≠ []) (n : Nat) :
    (drawKeys km n).1 = (List.range n).map
      (fun i => km.api_keys.getD ((km.key_idx + i) % km.api_keys.length) "") := by
  induction n generalizing km with
  | zero => simp [drawKeys]
  | succ n ih =>
    unfold drawKeys
    rw [get_next_key_eq h]
    simp only [List.range_succ_eq_map, List.map_cons, List.map_map]
    congr 1
    rw [@ih { km with key_idx := km.key_idx + 1 } h]
    refine List.map_congr_left fun i _ => ?_
    have heq : km.key_idx + 1 + i = km.key_idx + (i + 1) := by omega
    simp [Function.comp, heq, List.getD]

/-- C5: for a pool with `N ≥ 1` credentials, `N` consecutive `get_next_key`
calls return exactly the rotation of the credential list starting at the
current cursor position — a permutation of the pool, i.e. each credential
exactly once in list order — and the `(N+1)`-th call returns the same
credential as the first. -/
theorem C5_rotation_visits_all (km : KMState) (h : km.api_keys ≠ []) :
    (drawKeys km km.api_keys.length).1 =
        km.api_keys.rotate (km.key_idx % km.api_keys.length) ∧
      ((drawKeys km km.api_keys.length).1).Perm km.api_keys ∧
      (drawKeys km (km.api_keys.length + 1)).1.getD km.api_keys.length "" =
        (drawKeys km (km.api_keys.length + 1)).1.getD 0 "" := by
  have hN : 0 < km.api_keys.length := List.length_pos.mpr h
  have hrot : (drawKeys km km.api_keys.length).1 =
      km.api_keys.rotate (km.key_idx % km.api_keys.length) := by
    rw [drawKeys_eq h]
    refine List.ext_get ?_ fun n h1 h2 => ?_
    · simp [List.length_rotate]
    · rw [List.get_rotate]
      simp only [List.get_eq_getElem, List.getElem_map, List.getElem_range]
      have hlt : (km.key_idx + n) % km.api_keys.length < km.api_keys.length :=
        Nat.mod_lt _ hN
      rw [List.getD_eq_getElem km.api_keys "" hlt]
      congr 1
      rw [Nat.add_mod_mod, Nat.add_comm]
  refine ⟨hrot, ?_, ?_⟩
  · rw [hrot]
    exact List.rotate_perm km.api_keys (km.key_idx % km.api_keys.length)
  · rw [drawKeys_eq h]
    have hlen : ((List.range (km.api_keys.length + 1)).map
        (fun i => km.api_keys.getD ((km.key_idx + i) % km.api_keys.length) "")).length =
        km.api_keys.length + 1 := by simp
    rw [List.getD_eq_getElem _ "" (by rw [hlen]; omega),
      List.getD_eq_getElem _ "" (by rw [hlen]; omega)]
    simp only [List.getElem_map, List.getElem_range]
    rw [Nat.add_mod_right]
    simp

/-- Witness for C5 on a concrete three-credential pool with the cursor
mid-rotation. -/
theorem C5_rotation_visits_all_witness :
    (⟨["a", "b", "c"], [], 1, 0, [("a", 0), ("b", 0), ("c", 0)], [], 3, 3⟩ :
        KMState).api_keys ≠ [] ∧
      (drawKeys ⟨["a", "b", "c"], [], 1, 0, [("a", 0), ("b", 0), ("c", 0)], [], 3, 3⟩
          (⟨["a", "b", "c"], [], 1, 0, [("a", 0), ("b", 0), ("c", 0)], [], 3, 3⟩ :
            KMState).api_keys.length).1 =
          (⟨["a", "b", "c"], [], 1, 0, [("a", 0), ("b", 0), ("c", 0)], [], 3, 3⟩ :
            KMState).api_keys.rotate
            ((⟨["a", "b", "c"], [], 1, 0, [("a", 0), ("b", 0), ("c", 0)], [], 3, 3⟩ :
              KMState).key_idx %
              (⟨["a", "b", "c"], [], 1, 0, [("a", 0), ("b", 0), ("c", 0)], [], 3, 3⟩ :
                KMState).api_keys.length) ∧
        ((drawKeys ⟨["a", "b", "c"], [], 1, 0, [("a", 0), ("b", 0), ("c", 0)], [], 3, 3⟩
            (⟨["a", "b", "c"], [], 1, 0, [("a", 0), ("b", 0), ("c", 0)], [], 3, 3⟩ :
              KMState).api_keys.length).1).Perm
          (⟨["a", "b", "c"], [], 1, 0, [("a", 0), ("b", 0), ("c", 0)], [], 3, 3⟩ :
            KMState).api_keys ∧
        (drawKeys ⟨["a", "b", "c"], [], 1, 0, [("a", 0), ("b", 0), ("c", 0)], [], 3, 3⟩
            ((⟨["a", "b", "c"], [], 1, 0, [("a", 0), ("b", 0), ("c", 0)], [], 3, 3⟩ :
              KMState).api_keys.length + 1)).1.getD
          (⟨["a", "b", "c"], [], 1, 0, [("a", 0), ("b", 0), ("c", 0)], [], 3, 3⟩ :
            KMState).api_keys.length "" =
          (drawKeys ⟨["a", "b", "c"], [], 1, 0, [("a", 0), ("b", 0), ("c", 0)], [], 3, 3⟩
            ((⟨["a", "b", "c"], [], 1, 0, [("a", 0), ("b", 0), ("c", 0)], [], 3, 3⟩ :
              KMState).api_keys.length + 1)).1.getD 0 "" :=
  ⟨by decide,
   C5_rotation_visits_all
     ⟨["a", "b", "c"], [], 1, 0, [("a", 0), ("b", 0), ("c", 0)], [], 3, 3⟩ (by decide)⟩

/-! ### C7: chunked emission round-trips -/

theorem chunksOf_flatten {size : Nat} (hs : 0 < size) (l : List Char) :
    (chunksOf size l).flatten = l := by
  induction l using chunksOf.induct size with
  | case1 l h => omega
  | case2 l hz he =>
    rw [chunksOf, if_neg hz, if_pos he]
    simp [List.isEmpty_iff.mp he]
  | case3 l hz he ih =>
    rw [chunksOf, if_neg hz, if_neg he]
    simp [List.flatten_cons, ih]

theorem chunksOf_blocks {size : Nat} (hs : 0 < size) (l : List Char) :
    ∀ c ∈ chunksOf size l, c ≠ [] ∧ c.length ≤ size := by
  induction l using chunksOf.induct size with
  | case1 l h => omega
  | case2 l hz he =>
    rw [chunksOf, if_neg hz, if_pos he]
    simp
  | case3 l hz he ih =>
    rw [chunksOf, if_neg hz, if_neg he]
    intro c hc
    rcases List.mem_cons.mp hc with h | h
    · subst h
      refine ⟨?_, by simp⟩
      have hlp : l ≠ [] := by simpa [List.isEmpty_iff] using he
      simp [List.take_eq_nil_iff, hs.ne', hlp]
    · exact ih c h

theorem chunksOf_full_blocks {size : Nat} (hs : 0 < size) (l : List Char) :
    ∀ i, i + 1 < (chunksOf size l).length →
      ((chunksOf size l).getD i []).length = size := by
  induction l using chunksOf.induct size with
  | case1 l h => omega
  | case2 l hz he =>
    rw [chunksOf, if_neg hz, if_pos he]
    simp
  | case3 l hz he ih =>
    rw [chunksOf, if_neg hz, if_neg he]
    intro i hi
    match i with
    | 0 =>
      simp only [List.length_cons] at hi
      have hrest : chunksOf size (l.drop size) ≠ [] := by
        intro hnil
        rw [hnil] at hi
        simp at hi
      have hdrop : l.drop size ≠ [] := by
        intro hnil
        rw [chunksOf, if_neg hz, hnil] at hrest
        simp at hrest
      have hlen : size < l.length := by
        by_contra hcon
        push_neg at hcon
        exact hdrop (List.drop_eq_nil_of_le hcon)
      simp [List.length_take]
      omega
    | i + 1 =>
      simp only [List.length_cons, Nat.add_lt_add_iff_right] at hi
      simpa using ih i (by omega)

/-- C7: for every input text and a positive configured chunk size, the
concatenation of the chunk texts emitted by `optimize_stream_output` equals
the input exactly; texts below the long-text threshold are emitted one
character per frame, and texts at or above it in contiguous blocks of
`chunk_size` characters, the last block possibly shorter but never empty. -/
theorem C7_stream_roundtrip (o : StreamOptimizer) (text : List Char)
    (hs : 0 < o.chunk_size) :
    (optimize_stream_output_texts o text).flatten = text ∧
      (text.length < o.long_text_threshold →
        optimize_stream_output_texts o text = text.map (fun c => [c])) ∧
      (o.long_text_threshold ≤ text.length →
        optimize_stream_output_texts o text = chunksOf o.chunk_size text ∧
          (∀ c ∈ chunksOf o.chunk_size text, c ≠ [] ∧ c.length ≤ o.chunk_size) ∧
          (∀ i, i + 1 < (chunksOf o.chunk_size text).length →
            ((chunksOf o.chunk_size text).getD i []).length = o.chunk_size)) := by
  have hmap : (List.map (fun c => [c]) text).flatten = text := by
    induction text with
    | nil => simp
    | cons a as ih => simp [ih]
  refine ⟨?_, ?_, ?_⟩
  · unfold optimize_stream_output_texts
    by_cases hemp : text.isEmpty
    · simp [hemp, List.isEmpty_iff.mp hemp]
    · simp only [hemp, Bool.false_eq_true, if_false]
      by_cases hlong : o.long_text_threshold ≤ text.length
      · simp only [if_pos hlong]
        exact chunksOf_flatten hs text
      · simp only [if_neg hlong]
        exact hmap
  · intro hshort
    unfold optimize_stream_output_texts
    by_cases hemp : text.isEmpty
    · simp [hemp, List.isEmpty_iff.mp hemp]
    · simp [hemp, Nat.not_le.mpr hshort]
  · intro hlong
    refine ⟨?_, chunksOf_blocks hs text, chunksOf_full_blocks hs text⟩
    unfold optimize_stream_output_texts
    by_cases hemp : text.isEmpty
    · rw [chunksOf]
      simp [hemp]
    · simp [hemp, hlong, split_text_into_chunks]

/-- Witness for C7: chunk size 2, long threshold 5, text of length 5. -/
theorem C7_stream_roundtrip_witness :
    0 < (⟨0, 1, 2, 5, 2⟩ : StreamOptimizer).chunk_size ∧
      (optimize_stream_output_texts ⟨0, 1, 2, 5, 2⟩
          (String.data "hello")).flatten = String.data "hello" ∧
      ((String.data "hi").length < (⟨0, 1, 2, 5, 2⟩ : StreamOptimizer).long_text_threshold →
        optimize_stream_output_texts ⟨0, 1, 2, 5, 2⟩ (String.data "hi") =
          (String.data "hi").map (fun c => [c])) :=
  ⟨by decide,
   (C7_stream_roundtrip ⟨0, 1, 2, 5, 2⟩ (String.data "hello") (by decide)).1,
   (C7_stream_roundtrip ⟨0, 1, 2, 5, 2⟩ (String.data "hi") (by decide)).2.1⟩

/-! ### C6: the failure-count invariant -/

theorem gnwk_loop_state (fuel : Nat) :
    ∀ (km : KMState) (initial current : String),
      (get_next_working_key_loop km initial current fuel).2.key_failure_counts =
          km.key_failure_counts ∧
        (get_next_working_key_loop km initial current fuel).2.api_keys = km.api_keys := by
  induction fuel with
  | zero =>
    intro km initial current
    simp [get_next_working_key_loop]
  | succ n ih =>
    intro km initial current
    unfold get_next_working_key_loop
    cases hv : is_key_valid km current with
    | error e => simp
    | ok b =>
      cases b with
      | true => simp
      | false =>
        simp only []
        unfold get_next_key
        by_cases hemp : km.api_keys.isEmpty
        · simp [hemp]
        · simp only [hemp, Bool.false_eq_true, if_false]
          by_cases hini :
              km.api_keys.getD (km.key_idx % km.api_keys.length) "" = initial
          · rw [if_pos hini]
            exact ⟨rfl, rfl⟩
          · rw [if_neg hini]
            exact ih { km with key_idx := km.key_idx + 1 } initial _

theorem gnwk_state (km : KMState) (fuel : Nat) :
    (get_next_working_key km fuel).2.key_failure_counts = km.key_failure_counts ∧
      (get_next_working_key km fuel).2.api_keys = km.api_keys := by
  unfold get_next_working_key
  unfold get_next_key
  by_cases hemp : km.api_keys.isEmpty
  · simp [hemp]
  · simp only [hemp, Bool.false_eq_true, if_false]
    exact gnwk_loop_state fuel { km with key_idx := km.key_idx + 1 } _ _

theorem lookupD_mapZero (d : List (String × Nat)) (j : String) :
    lookupD (d.map (fun kv => (kv.1, 0))) j = (lookupD d j).map (fun _ => 0) := by
  induction d with
  | nil => simp [lookupD]
  | cons kv rest ih =>
    obtain ⟨k0, v0⟩ := kv
    by_cases hk : k0 = j
    · simp [lookupD, hk]
    · simp [lookupD, hk, ih]

/-- C6: every `KeyManager` operation preserves the failure-count invariant —
on a pool where every credential has a count entry, the operation's
resulting state still has an entry for every pool credential (counts are
`Nat`-valued, hence non-negative, exactly as in the source where they start
at `0` and are only zeroed or incremented), and every individual count is
either left unchanged, reset to `0`, or incremented by exactly one;
`get_keys_by_status` and `get_first_valid_key` leave the state untouched. -/
theorem C6_failure_count_invariant (km : KMState) (key : String) (retries fuel : Nat)
    (hcov : Cover km) :
    (Cover (get_next_key km).2 ∧
      CountStep km.key_failure_counts (get_next_key km).2.key_failure_counts) ∧
    (Cover (get_next_working_key km fuel).2 ∧
      CountStep km.key_failure_counts
        (get_next_working_key km fuel).2.key_failure_counts) ∧
    (Cover (handle_api_failure km key retries).2 ∧
      CountStep km.key_failure_counts
        (handle_api_failure km key retries).2.key_failure_counts) ∧
    (Cover (reset_key_failure_count km key).2 ∧
      CountStep km.key_failure_counts
        (reset_key_failure_count km key).2.key_failure_counts) ∧
    (Cover (reset_failure_counts km).2 ∧
      CountStep km.key_failure_counts
        (reset_failure_counts km).2.key_failure_counts) ∧
    (get_keys_by_status km).2 = km ∧
    (get_first_valid_key km).2 = km := by
  have hstep_refl : ∀ d, CountStep d d := fun d j => Or.inl rfl
  refine ⟨?_, ?_, ?_, ?_, ?_, rfl, rfl⟩
  · unfold get_next_key
    by_cases hemp : km.api_keys.isEmpty
    · simp only [hemp, if_pos]
      exact ⟨hcov, hstep_refl _⟩
    · simp only [hemp, Bool.false_eq_true, if_false]
      exact ⟨hcov, hstep_refl _⟩
  · obtain ⟨h1, h2⟩ := gnwk_state km fuel
    refine ⟨?_, ?_⟩
    · intro k hk
      rw [h2] at hk
      rw [h1]
      exact hcov k hk
    · rw [h1]
      exact hstep_refl _
  · unfold handle_api_failure
    cases hl : lookupD km.key_failure_counts key with
    | none => exact ⟨hcov, hstep_refl _⟩
    | some c =>
      have hsetcov : Cover { km with
          key_failure_counts := setKey km.key_failure_counts key (c + 1) } := by
        intro k hk
        rw [containsKey_setKey]
        exact hcov k hk
      have hsetstep : CountStep km.key_failure_counts
          (setKey km.key_failure_counts key (c + 1)) := by
        intro j
        by_cases hj : j = key
        · subst hj
          refine Or.inr (Or.inr ?_)
          rw [lookupD_setKey_self hl, hl]
          rfl
        · exact Or.inl (lookupD_setKey_ne hj)
      by_cases hr : retries < km.MAX_RETRIES
      · simp only [if_pos hr]
        obtain ⟨h1, h2⟩ := gnwk_state
          { km with key_failure_counts := setKey km.key_failure_counts key (c + 1) }
          km.api_keys.length
        refine ⟨?_, ?_⟩
        · intro k hk
          rw [h2] at hk
          rw [h1]
          exact hsetcov k hk
        · rw [h1]
          exact hsetstep
      · simp only [if_neg hr]
        exact ⟨hsetcov, hsetstep⟩
  · unfold reset_key_failure_count
    by_cases hc : containsKey km.key_failure_counts key
    · simp only [if_pos hc]
      obtain ⟨c, hl⟩ := mem_of_lookupD_isSome hc
      refine ⟨?_, ?_⟩
      · intro k hk
        rw [containsKey_setKey]
        exact hcov k hk
      · intro j
        by_cases hj : j = key
        · subst hj
          exact Or.inr (Or.inl (lookupD_setKey_self hl))
        · exact Or.inl (lookupD_setKey_ne hj)
    · simp only [if_neg hc]
      exact ⟨hcov, hstep_refl _⟩
  · unfold reset_failure_counts
    refine ⟨?_, ?_⟩
    · intro k hk
      have := hcov k hk
      unfold containsKey at this ⊢
      rw [lookupD_mapZero]
      cases hl : lookupD km.key_failure_counts k
      · rw [hl] at this
        simp at this
      · simp
    · intro j
      rw [lookupD_mapZero]
      cases hl : lookupD km.key_failure_counts j
      · exact Or.inl (by simp)
      · exact Or.inr (Or.inl (by simp))

/-- Witness for C6 on a concrete instance. -/
theorem C6_failure_count_invariant_witness :
    Cover ⟨["a", "b"], [], 0, 0, [("a", 0), ("b", 2)], [], 3, 3⟩ ∧
      (Cover (get_next_key ⟨["a", "b"], [], 0, 0, [("a", 0), ("b", 2)], [], 3, 3⟩).2 ∧
        CountStep (⟨["a", "b"], [], 0, 0, [("a", 0), ("b", 2)], [], 3, 3⟩ :
            KMState).key_failure_counts
          (get_next_key
            ⟨["a", "b"], [], 0, 0, [("a", 0), ("b", 2)], [], 3, 3⟩).2.key_failure_counts) ∧
      (Cover (get_next_working_key
          ⟨["a", "b"], [], 0, 0, [("a", 0), ("b", 2)], [], 3, 3⟩ 2).2 ∧
        CountStep (⟨["a", "b"], [], 0, 0, [("a", 0), ("b", 2)], [], 3, 3⟩ :
            KMState).key_failure_counts
          (get_next_working_key
            ⟨["a", "b"], [], 0, 0, [("a", 0), ("b", 2)], [], 3, 3⟩ 2).2.key_failure_counts) ∧
      (Cover (handle_api_failure
          ⟨["a", "b"], [], 0, 0, [("a", 0), ("b", 2)], [], 3, 3⟩ "a" 1).2 ∧
        CountStep (⟨["a", "b"], [], 0, 0, [("a", 0), ("b", 2)], [], 3, 3⟩ :
            KMState).key_failure_counts
          (handle_api_failure
            ⟨["a", "b"], [], 0, 0, [("a", 0), ("b", 2)], [], 3, 3⟩ "a" 1).2.key_failure_counts) ∧
      (Cover (reset_key_failure_count
          ⟨["a", "b"], [], 0, 0, [("a", 0), ("b", 2)], [], 3, 3⟩ "a").2 ∧
        CountStep (⟨["a", "b"], [], 0, 0, [("a", 0), ("b", 2)], [], 3, 3⟩ :
            KMState).key_failure_counts
          (reset_key_failure_count
            ⟨["a", "b"], [], 0, 0, [("a", 0), ("b", 2)], [], 3, 3⟩ "a").2.key_failure_counts) ∧
      (Cover (reset_failure_counts
          ⟨["a", "b"], [], 0, 0, [("a", 0), ("b", 2)], [], 3, 3⟩).2 ∧
        CountStep (⟨["a", "b"], [], 0, 0, [("a", 0), ("b", 2)], [], 3, 3⟩ :
            KMState).key_failure_counts
          (reset_failure_counts
            ⟨["a", "b"], [], 0, 0, [("a", 0), ("b", 2)], [], 3, 3⟩).2.key_failure_counts) ∧
      (get_keys_by_status ⟨["a", "b"], [], 0, 0, [("a", 0), ("b", 2)], [], 3, 3⟩).2 =
        ⟨["a", "b"], [], 0, 0, [("a", 0), ("b", 2)], [], 3, 3⟩ ∧
      (get_first_valid_key ⟨["a", "b"], [], 0, 0, [("a", 0), ("b", 2)], [], 3, 3⟩).2 =
        ⟨["a", "b"], [], 0, 0, [("a", 0), ("b", 2)], [], 3, 3⟩ :=
  ⟨by decide,
   C6_failure_count_invariant
     ⟨["a", "b"], [], 0, 0, [("a", 0), ("b", 2)], [], 3, 3⟩ "a" 1 2 (by decide)⟩

/-! ### C3: reconfiguration carry-over -/

theorem containsKey_iff_mem_keys (d : List (String × Nat)) (j : String) :
    containsKey d j = true ↔ j ∈ d.map Prod.fst := by
  induction d with
  | nil => simp [containsKey, lookupD]
  | cons kv rest ih =>
    obtain ⟨k0, v0⟩ := kv
    by_cases hk : k0 = j
    · simp [containsKey, lookupD, hk]
    · simp only [containsKey, lookupD, if_neg hk, List.map_cons, List.mem_cons]
      rw [containsKey] at ih
      rw [ih]
      constructor
      · exact Or.inr
      · rintro (h | h)
        · exact absurd h.symm hk
        · exact h

theorem mem_dedupKeys (keys : List String) (j : String) :
    j ∈ dedupKeys keys ↔ j ∈ keys := by
  induction keys with
  | nil => simp [dedupKeys]
  | cons k ks ih =>
    simp only [dedupKeys, List.mem_cons, List.mem_filter]
    constructor
    · rintro (h | ⟨h, _⟩)
      · exact Or.inl h
      · exact Or.inr (ih.mp h)
    · rintro (h | h)
      · exact Or.inl h
      · by_cases hk : j = k
        · exact Or.inl hk
        · exact Or.inr ⟨ih.mpr h, by simpa using hk⟩

theorem lookupD_mkZeroCounts (keys : List String) (j : String) :
    lookupD (mkZeroCounts keys) j = if j ∈ keys then some 0 else none := by
  have haux : ∀ xs : List String,
      lookupD (xs.map (fun k => (k, 0))) j = if j ∈ xs then some 0 else none := by
    intro xs
    induction xs with
    | nil => simp [lookupD]
    | cons a as ih =>
      by_cases ha : a = j
      · simp [lookupD, ha]
      · simp only [List.map_cons, lookupD, if_neg ha, ih, List.mem_cons]
        by_cases hj : j ∈ as
        · simp [hj]
        · have hja : ¬(j = a) := fun h => ha h.symm
          simp [hj, hja]
  simp only [mkZeroCounts, haux, mem_dedupKeys]

theorem foldl_restore_containsKey (d : List (String × Nat)) :
    ∀ (cur : List (String × Nat)) (j : String),
      containsKey (d.foldl
        (fun cur kv => if containsKey cur kv.1 then setKey cur kv.1 kv.2 else cur) cur) j =
        containsKey cur j := by
  induction d with
  | nil => intro cur j; rfl
  | cons kv rest ih =>
    intro cur j
    rw [List.foldl_cons, ih]
    by_cases hc : containsKey cur kv.1
    · simp only [if_pos hc]
      exact containsKey_setKey cur kv.1 j kv.2
    · simp only [if_neg hc]

theorem foldl_restore_absent (d : List (String × Nat)) :
    ∀ (cur : List (String × Nat)) (j : String), containsKey d j = false →
      lookupD (d.foldl
        (fun cur kv => if containsKey cur kv.1 then setKey cur kv.1 kv.2 else cur) cur) j =
        lookupD cur j := by
  induction d with
  | nil => intro cur j _; rfl
  | cons kv rest ih =>
    intro cur j hd
    have hk1 : ¬(kv.1 = j) := by
      intro h
      rw [containsKey, lookupD] at hd
      obtain ⟨a, b⟩ := kv
      simp only at h
      simp [h] at hd
    have hrest : containsKey rest j = false := by
      rw [containsKey, lookupD] at hd
      obtain ⟨a, b⟩ := kv
      simp only at hk1
      simpa [containsKey, if_neg hk1] using hd
    rw [List.foldl_cons, ih _ j hrest]
    by_cases hc : containsKey cur kv.1
    · simp only [if_pos hc]
      exact lookupD_setKey_ne (fun h => hk1 h.symm)
    · simp only [if_neg hc]

theorem foldl_restore_present (d : List (String × Nat)) :
    ∀ (cur : List (String × Nat)) (j : String) (c : Nat),
      (d.map Prod.fst).Nodup → lookupD d j = some c → containsKey cur j = true →
      lookupD (d.foldl
        (fun cur kv => if containsKey cur kv.1 then setKey cur kv.1 kv.2 else cur) cur) j =
        some c := by
  induction d with
  | nil => intro cur j c _ hl; simp [lookupD] at hl
  | cons kv rest ih =>
    intro cur j c hnd hl hcur
    obtain ⟨k0, v0⟩ := kv
    simp only [List.map_cons, List.nodup_cons] at hnd
    by_cases hk : k0 = j
    · subst hk
      simp [lookupD] at hl
      subst hl
      rw [List.foldl_cons]
      simp only [if_pos hcur]
      have hrest : containsKey rest k0 = false := by
        rw [Bool.eq_false_iff]
        intro hcon
        exact hnd.1 ((containsKey_iff_mem_keys rest k0).mp hcon)
      rw [foldl_restore_absent rest _ k0 hrest]
      exact lookupD_setKey_self (mem_of_lookupD_isSome hcur).choose_spec
    · simp only [lookupD, if_neg hk] at hl
      rw [List.foldl_cons]
      by_cases hc : containsKey cur k0
      · simp only [if_pos hc]
        exact ih _ j c hnd.2 hl (by rw [containsKey_setKey]; exact hcur)
      · simp only [if_neg hc]
        exact ih _ j c hnd.2 hl hcur

theorem restoreCounts_carry {newKeys : List String} {d : List (String × Nat)} {k : String}
    (hnd : (d.map Prod.fst).Nodup) (hkn : k ∈ newKeys) {c : Nat}
    (hl : lookupD d k = some c) :
    lookupD (restoreCounts newKeys d) k = some c := by
  unfold restoreCounts
  refine foldl_restore_present d _ k c hnd hl ?_
  unfold containsKey
  rw [lookupD_mkZeroCounts]
  simp [hkn]

theorem restoreCounts_fresh {newKeys : List String} {d : List (String × Nat)} {k : String}
    (hkn : k ∈ newKeys) (habs : containsKey d k = false) :
    lookupD (restoreCounts newKeys d) k = some 0 := by
  unfold restoreCounts
  rw [foldl_restore_absent d _ k habs, lookupD_mkZeroCounts]
  simp [hkn]

theorem closestSurvivor_mem {oldKeys newKeys : List String} {startIdx : Nat} {w : String}
    (h : closestSurvivor oldKeys newKeys startIdx = some w) :
    w ∈ oldKeys ∧ w ∈ newKeys := by
  unfold closestSurvivor at h
  obtain ⟨i, hi, hf⟩ := List.exists_of_findSome?_eq_some h
  have hne : oldKeys ≠ [] := by
    intro hnil
    subst hnil
    simp at hi
  by_cases hmem : oldKeys.getD ((startIdx + i) % oldKeys.length) "" ∈ newKeys
  · rw [if_pos hmem] at hf
    obtain rfl := Option.some_inj.mp hf
    exact ⟨getD_mod_mem hne (startIdx + i), hmem⟩
  · rw [if_neg hmem] at hf
    exact absurd hf (by simp)

theorem findIdx?_eq_some_findIdx {l : List String} {x : String} (h : x ∈ l) :
    l.findIdx? (fun y => y = x) = some (l.findIdx (fun y => y = x)) := by
  rw [List.findIdx?_eq_some_iff_findIdx_eq]
  exact ⟨List.findIdx_lt_length_of_exists ⟨x, h, by simp⟩, rfl⟩

theorem getD_findIdx_self {l : List String} {x : String} (h : x ∈ l) :
    l.getD (l.findIdx (fun y => y = x)) "" = x := by
  have hlt : l.findIdx (fun y => y = x) < l.length :=
    List.findIdx_lt_length_of_exists ⟨x, h, by simp⟩
  rw [List.getD_eq_getElem l "" hlt]
  have hp := @List.findIdx_getElem _ (fun y => y = x) l hlt
  simpa using hp

theorem restoreVertexCounts_main (km : KMState) (s : SingletonState) :
    (restoreVertexCounts km s).api_keys = km.api_keys ∧
      (restoreVertexCounts km s).key_idx = km.key_idx ∧
      (restoreVertexCounts km s).key_failure_counts = km.key_failure_counts := by
  unfold restoreVertexCounts
  split
  · split <;> exact ⟨rfl, rfl, rfl⟩
  · exact ⟨rfl, rfl, rfl⟩

theorem restoreVertexCycle_main (km : KMState) (s : SingletonState) :
    (restoreVertexCycle km s).api_keys = km.api_keys ∧
      (restoreVertexCycle km s).key_idx = km.key_idx ∧
      (restoreVertexCycle km s).key_failure_counts = km.key_failure_counts := by
  unfold restoreVertexCycle
  split
  · split
    · exact ⟨rfl, rfl, rfl⟩
    · split <;> exact ⟨rfl, rfl, rfl⟩
  · exact ⟨rfl, rfl, rfl⟩

theorem restoreVertexPool_main (km : KMState) (s : SingletonState) :
    (restoreVertexPool km s).api_keys = km.api_keys ∧
      (restoreVertexPool km s).key_idx = km.key_idx ∧
      (restoreVertexPool km s).key_failure_counts = km.key_failure_counts := by
  unfold restoreVertexPool
  obtain ⟨h1, h2, h3⟩ := restoreVertexCycle_main (restoreVertexCounts km s) s
  obtain ⟨g1, g2, g3⟩ := restoreVertexCounts_main km s
  exact ⟨h1.trans g1, h2.trans g2, h3.trans g3⟩

/-- C3 (counterexample): the claim predicts that after replacing
`["", "B"]` (cursor about to return the empty-string credential) with
`["B", ""]`, the first `get_next_key` returns the closest surviving
successor, which is the empty-string credential itself; but the code's
truthiness guard `if ... and _preserved_next_key_in_cycle and ...` treats
the preserved empty-string hint as falsy, skips the cycle advancement, and
the first `get_next_key` returns `"B"` instead. -/
theorem C3_counterexample :
    (match
        get_key_manager_instance
          (reset_key_manager_instance
            ⟨some (initKeyManager ["", "B"] [] 3 3), none, none, none, none, none, none⟩)
          (some ["B", ""]) (some []) 3 3 with
      | .ok (km', _) => (get_next_key km').1
      | .error _ => .error .valueError) = .ok "B" ∧
      closestSurvivor ["", "B"] ["B", ""]
        ((["", "B"] : List String).findIdx (fun x =>
          x = (["", "B"] : List String).getD (0 % 2) "")) = some "" ∧
      ¬(("B" : String) = "") :=
  ⟨rfl, rfl, by decide⟩

/-- C3 (amended): reconfiguration through `reset_key_manager_instance`
followed by `get_key_manager_instance` with a new credential list carries
over the failure count of every credential present in both lists,
initializes every newly added credential's count to `0`, and — provided the
pool's credentials are non-empty strings — advances the new cycle so that
the first `get_next_key` returns the closest successor surviving in the new
list, scanning forward with wraparound from the first occurrence in the old
list of the old pool's next-to-be-returned credential's value (identical to
its cursor position when the old list has no duplicates).  The `Nodup`
hypothesis on the stored count keys and the two-sided coverage hypothesis
are the dict invariants the constructor establishes. -/
theorem C3_reconfiguration (km : KMState) (newKeys newVKeys : List String)
    (mf mr : Nat) (w : String)
    (hne : km.api_keys ≠ [])
    (hnoempty : "" ∉ km.api_keys)
    (hnodup : (km.key_failure_counts.map Prod.fst).Nodup)
    (hcov : ∀ j, containsKey km.key_failure_counts j = true ↔ j ∈ km.api_keys)
    (hnew : newKeys ≠ [])
    (hw : closestSurvivor km.api_keys newKeys
        (km.api_keys.findIdx (fun x =>
          x = km.api_keys.getD (km.key_idx % km.api_keys.length) "")) = some w) :
    ∃ km' s',
      get_key_manager_instance
          (reset_key_manager_instance ⟨some km, none, none, none, none, none, none⟩)
          (some newKeys) (some newVKeys) mf mr = .ok (km', s') ∧
        (∀ k, k ∈ newKeys → k ∈ km.api_keys →
          lookupD km'.key_failure_counts k = lookupD km.key_failure_counts k) ∧
        (∀ k, k ∈ newKeys → k ∉ km.api_keys →
          lookupD km'.key_failure_counts k = some 0) ∧
        (get_next_key km').1 = .ok w := by
  have hnv_mem : km.api_keys.getD (km.key_idx % km.api_keys.length) "" ∈ km.api_keys :=
    getD_mod_mem hne km.key_idx
  have hnv_ne : ¬(km.api_keys.getD (km.key_idx % km.api_keys.length) "" = "") :=
    fun h => hnoempty (h ▸ hnv_mem)
  obtain ⟨hw_old, hw_new⟩ := closestSurvivor_mem hw
  have hw_ne : ¬(w = "") := fun h => hnoempty (h ▸ hw_old)
  have hdne : km.key_failure_counts.isEmpty = false := by
    cases hk : km.api_keys with
    | nil => exact absurd hk hne
    | cons k0 rest =>
      have hck : containsKey km.key_failure_counts k0 = true :=
        (hcov k0).mpr (by rw [hk]; exact List.mem_cons_self k0 rest)
      cases hd : km.key_failure_counts with
      | nil =>
        rw [hd] at hck
        simp [containsKey, lookupD] at hck
      | cons a b => rfl
  set R : SingletonState :=
    ⟨none, some km.key_failure_counts, some km.vertex_key_failure_counts,
      some km.api_keys, some km.vertex_api_keys,
      some (km.api_keys.getD (km.key_idx % km.api_keys.length) ""),
      if km.vertex_api_keys.isEmpty then none
      else
        match get_next_vertex_key km with
        | (.ok k, _) => some k
        | (.error _, _) => none⟩ with hR
  set KM2 : KMState :=
    ⟨newKeys, newVKeys, newKeys.findIdx (fun x => x = w), 0,
      restoreCounts newKeys km.key_failure_counts, mkZeroCounts newVKeys, mf, mr⟩
    with hKM2
  -- the state after reset is R
  have hs1 : reset_key_manager_instance ⟨some km, none, none, none, none, none, none⟩ =
      R := by
    rw [hR]
    show (⟨none, some km.key_failure_counts, some km.vertex_key_failure_counts,
        some km.api_keys, some km.vertex_api_keys,
        if km.api_keys.isEmpty then none
        else
          match get_next_key km with
          | (.ok k, _) => some k
          | (.error _, _) => none,
        if km.vertex_api_keys.isEmpty then none
        else
          match get_next_vertex_key km with
          | (.ok k, _) => some k
          | (.error _, _) => none⟩ : SingletonState) = _
    rw [get_next_key_eq hne]
    simp [List.isEmpty_iff, hne]
  -- stage A: the constructor state with counts restored
  have hA : restoreMainCounts (initKeyManager newKeys newVKeys mf mr) R =
      ⟨newKeys, newVKeys, 0, 0, restoreCounts newKeys km.key_failure_counts,
        mkZeroCounts newVKeys, mf, mr⟩ := by
    show (if km.key_failure_counts.isEmpty then initKeyManager newKeys newVKeys mf mr
      else { initKeyManager newKeys newVKeys mf mr with
        key_failure_counts :=
          restoreCounts (initKeyManager newKeys newVKeys mf mr).api_keys
            km.key_failure_counts }) = _
    rw [hdne]
    rfl
  -- stage B: the determined start key is the surviving successor
  have hB : mainStartKey
      (⟨newKeys, newVKeys, 0, 0, restoreCounts newKeys km.key_failure_counts,
        mkZeroCounts newVKeys, mf, mr⟩ : KMState) R = some w := by
    show (if km.api_keys.isEmpty ||
        km.api_keys.getD (km.key_idx % km.api_keys.length) "" = "" || newKeys.isEmpty
      then none
      else
        match km.api_keys.findIdx? (fun x =>
          x = km.api_keys.getD (km.key_idx % km.api_keys.length) "") with
        | none => none
        | some startIdx => closestSurvivor km.api_keys newKeys startIdx) = some w
    rw [findIdx?_eq_some_findIdx hnv_mem]
    have he1 : km.api_keys.isEmpty = false := by
      simp [List.isEmpty_iff, hne]
    have he2 : newKeys.isEmpty = false := by
      simp [List.isEmpty_iff, hnew]
    have he3 : decide (km.api_keys.getD (km.key_idx % km.api_keys.length) "" = "") =
        false := decide_eq_false hnv_ne
    rw [he1, he2, he3]
    simp only [Bool.or_self, Bool.false_eq_true, if_false]
    exact hw
  -- stage C: the cycle is pre-advanced to the survivor's index
  have htlt : newKeys.findIdx (fun x => x = w) < newKeys.length :=
    List.findIdx_lt_length_of_exists ⟨w, hw_new, by simp⟩
  have hC : restoreMainPool (initKeyManager newKeys newVKeys mf mr) R = KM2 := by
    unfold restoreMainPool restoreMainCycle
    rw [hA, hB]
    split
    · rename_i sk heq
      obtain rfl : w = sk := Option.some_inj.mp heq
      have he2 : (⟨newKeys, newVKeys, 0, 0,
          restoreCounts newKeys km.key_failure_counts,
          mkZeroCounts newVKeys, mf, mr⟩ : KMState).api_keys.isEmpty = false := by
        show newKeys.isEmpty = false
        simp [List.isEmpty_iff, hnew]
      rw [decide_eq_false hw_ne, he2]
      simp only [Bool.or_self, Bool.false_eq_true, if_false]
      rw [show (⟨newKeys, newVKeys, 0, 0,
          restoreCounts newKeys km.key_failure_counts,
          mkZeroCounts newVKeys, mf, mr⟩ : KMState).api_keys.findIdx?
          (fun x => x = w) = some (newKeys.findIdx (fun x => x = w)) from
        findIdx?_eq_some_findIdx hw_new]
    · rename_i heq
      exact absurd heq (by simp)
  obtain ⟨hq1, hq2, hq3⟩ := restoreVertexPool_main KM2 R
  refine ⟨restoreVertexPool KM2 R,
    ⟨some (restoreVertexPool KM2 R), none, none, none, none, none, none⟩, ?_, ?_, ?_, ?_⟩
  · rw [hs1]
    show Except.ok
        (restoreVertexPool (restoreMainPool (initKeyManager newKeys newVKeys mf mr) R) R,
         (⟨some (restoreVertexPool
             (restoreMainPool (initKeyManager newKeys newVKeys mf mr) R) R),
           none, none, none, none, none, none⟩ : SingletonState)) = _
    rw [hC]
  · intro k hkn hko
    rw [hq3, hKM2]
    obtain ⟨c, hc⟩ := mem_of_lookupD_isSome ((hcov k).mpr hko)
    rw [restoreCounts_carry hnodup hkn hc, hc]
  · intro k hkn hko
    rw [hq3, hKM2]
    have habs : containsKey km.key_failure_counts k = false := by
      rw [Bool.eq_false_iff]
      intro hcon
      exact hko ((hcov k).mp hcon)
    exact restoreCounts_fresh hkn habs
  · have hk'ne : (restoreVertexPool KM2 R).api_keys ≠ [] := by
      rw [hq1, hKM2]
      exact hnew
    rw [get_next_key_eq hk'ne]
    simp only []
    rw [hq1, hq2, hKM2]
    simp only []
    rw [Nat.mod_eq_of_lt htlt]
    rw [getD_findIdx_self hw_new]

/-- Witness for C3's amended theorem on the spec's round-trip example:
old pool `[A, B, C]` with counts `{A: 2, B: 0, C: 1}` and the cursor about
to return `B`, replaced by `[B, C, D]`. -/
theorem C3_reconfiguration_witness :
    ((⟨["A", "B", "C"], [], 1, 0, [("A", 2), ("B", 0), ("C", 1)], [], 3, 3⟩ :
        KMState).api_keys ≠ [] ∧
      "" ∉ (⟨["A", "B", "C"], [], 1, 0, [("A", 2), ("B", 0), ("C", 1)], [], 3, 3⟩ :
        KMState).api_keys ∧
      ((⟨["A", "B", "C"], [], 1, 0, [("A", 2), ("B", 0), ("C", 1)], [], 3, 3⟩ :
        KMState).key_failure_counts.map Prod.fst).Nodup ∧
      (∀ j, containsKey (⟨["A", "B", "C"], [], 1, 0,
          [("A", 2), ("B", 0), ("C", 1)], [], 3, 3⟩ :
          KMState).key_failure_counts j = true ↔
        j ∈ (⟨["A", "B", "C"], [], 1, 0, [("A", 2), ("B", 0), ("C", 1)], [], 3, 3⟩ :
          KMState).api_keys) ∧
      (["B", "C", "D"] : List String) ≠ [] ∧
      closestSurvivor (⟨["A", "B", "C"], [], 1, 0,
          [("A", 2), ("B", 0), ("C", 1)], [], 3, 3⟩ : KMState).api_keys ["B", "C", "D"]
        ((⟨["A", "B", "C"], [], 1, 0, [("A", 2), ("B", 0), ("C", 1)], [], 3, 3⟩ :
          KMState).api_keys.findIdx (fun x =>
            x = (⟨["A", "B", "C"], [], 1, 0, [("A", 2), ("B", 0), ("C", 1)], [], 3, 3⟩ :
              KMState).api_keys.getD
              ((⟨["A", "B", "C"], [], 1, 0, [("A", 2), ("B", 0), ("C", 1)], [], 3, 3⟩ :
                KMState).key_idx %
                (⟨["A", "B", "C"], [], 1, 0, [("A", 2), ("B", 0), ("C", 1)], [], 3, 3⟩ :
                  KMState).api_keys.length) "")) = some "B") ∧
    ∃ km' s',
      get_key_manager_instance
          (reset_key_manager_instance
            ⟨some ⟨["A", "B", "C"], [], 1, 0, [("A", 2), ("B", 0), ("C", 1)], [], 3, 3⟩,
              none, none, none, none, none, none⟩)
          (some ["B", "C", "D"]) (some []) 3 3 = .ok (km', s') ∧
        (∀ k, k ∈ (["B", "C", "D"] : List String) →
          k ∈ (⟨["A", "B", "C"], [], 1, 0, [("A", 2), ("B", 0), ("C", 1)], [], 3, 3⟩ :
            KMState).api_keys →
          lookupD km'.key_failure_counts k =
            lookupD (⟨["A", "B", "C"], [], 1, 0,
              [("A", 2), ("B", 0), ("C", 1)], [], 3, 3⟩ :
              KMState).key_failure_counts k) ∧
        (∀ k, k ∈ (["B", "C", "D"] : List String) →
          k ∉ (⟨["A", "B", "C"], [], 1, 0, [("A", 2), ("B", 0), ("C", 1)], [], 3, 3⟩ :
            KMState).api_keys →
          lookupD km'.key_failure_counts k = some 0) ∧
        (get_next_key km').1 = .ok "B" :=
  ⟨⟨by decide, by decide, by decide,
    by
      intro j
      rw [containsKey_iff_mem_keys]
      simp,
    by decide, by decide⟩,
   C3_reconfiguration
     ⟨["A", "B", "C"], [], 1, 0, [("A", 2), ("B", 0), ("C", 1)], [], 3, 3⟩
     ["B", "C", "D"] [] 3 3 "B" (by decide) (by decide) (by decide)
     (by
       intro j
       rw [containsKey_iff_mem_keys]
       simp)
     (by decide) (by decide)⟩

end Gateway
